import Mathlib

/-!
Verification development for the openclaw-tavily plugin
(`src/index.ts` and the five-tool variant in `src/unnamed/part_001`).

The development shallowly embeds the pieces of the implementation the
specification talks about:

* the in-memory response cache (`readCache` / `writeCache`,
  `src/index.ts` lines 76-95, identical in `src/unnamed/part_001`
  lines 215-234), modelled as an association list mirroring a JS `Map`
  (first occurrence wins on lookup, insertion order is list order,
  setting an existing key updates it in place);
* the `tavily_search` tool's `execute` function from `src/index.ts`
  (parameter resolution, cache key derivation, cache lookup, outcome
  classification, payload formatting, cache write-back), with the HTTP
  fetch abstracted as an externally supplied outcome;
* the `tavily_research` tool's create-then-poll workflow from
  `src/unnamed/part_001` lines 1236-1373;
* the numeric clamping performed by `tavily_crawl`
  (`src/unnamed/part_001` lines 1043-1044);
* a structural record of each outbound `fetch` call site, recording
  whether the call attaches an `AbortController` timeout signal.

JavaScript dynamic values reaching a tool are modelled by `DynVal`,
JS `Map`s by association lists, JS numbers by `ℚ` (`NaN`/`Infinity`
are not modelled; `Number.isFinite` is therefore constantly true on
the model), and wall-clock instants (`Date.now()`) by explicit
integer/natural-number parameters.
-/

namespace Tavily

/-- A dynamic JavaScript value as received in a tool's `params`
record.  Only the shapes the plugin inspects are distinguished. -/
inductive DynVal where
  | dstr : String → DynVal
  | dnum : ℚ → DynVal
  | dbool : Bool → DynVal
  | darr : List DynVal → DynVal
  | dnull : DynVal

/-- A raw `params` object: JS object modelled as an association list
of fields in property order. -/
abbrev RawParams := List (String × DynVal)

/-- JS property access `params.k`: the (unique) binding for the key.
On JS objects keys are unique; on the list model the first binding
wins. -/
def plookup (k : String) : RawParams → Option DynVal
  | [] => none
  | (k', v) :: t => if k' = k then some v else plookup k t

/-- `typeof x === "string"` projection. -/
def asStr : Option DynVal → Option String
  | some (.dstr s) => some s
  | _ => none

/-- `typeof x === "number"` projection (model: every model number is
finite, so `Number.isFinite` adds nothing). -/
def asNum : Option DynVal → Option ℚ
  | some (.dnum q) => some q
  | _ => none

/-- `typeof x === "boolean"` projection. -/
def asBool : Option DynVal → Option Bool
  | some (.dbool b) => some b
  | _ => none

/-- `Array.isArray(x)` projection. -/
def asArr : Option DynVal → Option (List DynVal)
  | some (.darr l) => some l
  | _ => none

/-- JS string truthiness of an optional string: truthy iff present and
non-empty. Used for `!requestId`, `pollData.output`, `data.answer`. -/
def truthyStr : Option String → Bool
  | some s => s != ""
  | none => false

/-- `String.prototype.toLowerCase` (over the model's character set,
via `Char.toLower`). -/
def jsToLower (s : String) : String :=
  ⟨s.data.map Char.toLower⟩

/-- `String.prototype.trim`: strip leading and trailing whitespace. -/
def jsTrim (s : String) : String :=
  ⟨List.reverse (List.dropWhile Char.isWhitespace
    (List.reverse (List.dropWhile Char.isWhitespace s.data)))⟩

-- ---------------------------------------------------------------------------
-- Response cache (`src/index.ts` lines 55-95)
-- ---------------------------------------------------------------------------

/-- `CacheEntry` (`src/index.ts` lines 55-58): stored value plus the
absolute expiry instant. -/
structure CacheEntry (α : Type) where
  value : α
  expiresAt : ℤ
deriving DecidableEq

/-- The `SEARCH_CACHE` JS `Map`, modelled as an association list in
insertion order. -/
abbrev Cache (α : Type) := List (String × CacheEntry α)

/-- `Map.prototype.get`: first binding for the key. -/
def mapGet (c : Cache α) (k : String) : Option (CacheEntry α) :=
  match c with
  | [] => none
  | (k', e) :: t => if k' = k then some e else mapGet t k

/-- `Map.prototype.set`: update the existing binding in place (keeping
its position, as a JS `Map` does), else append at the end. -/
def mapSet (c : Cache α) (k : String) (e : CacheEntry α) : Cache α :=
  match c with
  | [] => [(k, e)]
  | (k', e') :: t => if k' = k then (k, e) :: t else (k', e') :: mapSet t k e

/-- `Map.prototype.delete`: drop the bindings for the key. -/
def mapDelete (c : Cache α) (k : String) : Cache α :=
  c.filter (fun p => p.1 ≠ k)

/-- `MAX_CACHE_ENTRIES` (`src/index.ts` line 70). -/
def MAX_CACHE_ENTRIES : ℕ := 100

/-- `readCache` (`src/index.ts` lines 78-86).  Returns the lookup
result together with the cache after the call (an expired entry is
deleted as a side effect; the expiry test is `Date.now() > expiresAt`,
strict). -/
def readCache (c : Cache α) (now : ℤ) (key : String) :
    Option α × Cache α :=
  match mapGet c key with
  | none => (none, c)
  | some entry =>
    if entry.expiresAt < now then (none, mapDelete c key)
    else (some entry.value, c)

/-- `writeCache` (`src/index.ts` lines 88-95).  No-op for
`ttlMs <= 0`; at or above capacity first deletes the first key in
iteration order, then sets the new binding. -/
def writeCache (c : Cache α) (now : ℤ) (key : String) (value : α)
    (ttlMs : ℤ) : Cache α :=
  if ttlMs ≤ 0 then c
  else
    let c1 := if MAX_CACHE_ENTRIES ≤ c.length then c.drop 1 else c
    mapSet c1 key ⟨value, now + ttlMs⟩

/-- One cache operation, for stating invariants over operation
sequences. -/
inductive CacheOp (α : Type) where
  | read (key : String) (now : ℤ)
  | write (key : String) (value : α) (ttlMs : ℤ) (now : ℤ)

/-- Effect of one operation on the cache state. -/
def applyOp (c : Cache α) : CacheOp α → Cache α
  | .read key now => (readCache c now key).2
  | .write key value ttlMs now => writeCache c now key value ttlMs

/-- Effect of an operation sequence, oldest first. -/
def applyOps (c : Cache α) (ops : List (CacheOp α)) : Cache α :=
  ops.foldl applyOp c

-- ---------------------------------------------------------------------------
-- tavily_search: parameter resolution (`src/index.ts` lines 247-324)
-- ---------------------------------------------------------------------------

/-- The plugin-level defaults already resolved by `register`
(`src/index.ts` lines 225-230); the `execute` closure only reads these
resolved values. -/
structure SearchConfig where
  defaultSearchDepth : String
  defaultMaxResults : ℤ
  defaultIncludeAnswer : Bool
  defaultIncludeRawContent : Bool
  defaultTimeout : ℤ
  cacheTtlMs : ℤ
deriving DecidableEq

/-- `MAX_RESULTS_CAP` (`src/index.ts` line 67). -/
def MAX_RESULTS_CAP : ℤ := 20

/-- The fields of `params` the search `execute` reads.  Property
access by name ignores the object's property order, which this record
makes explicit. -/
structure ParamsView where
  query : Option DynVal
  count : Option DynVal
  search_depth : Option DynVal
  include_answer : Option DynVal
  include_raw_content : Option DynVal
  topic : Option DynVal
  days : Option DynVal
  include_domains : Option DynVal
  exclude_domains : Option DynVal

/-- Collect the parameter fields the search tool accesses. -/
def paramsView (p : RawParams) : ParamsView where
  query := plookup "query" p
  count := plookup "count" p
  search_depth := plookup "search_depth" p
  include_answer := plookup "include_answer" p
  include_raw_content := plookup "include_raw_content" p
  topic := plookup "topic" p
  days := plookup "days" p
  include_domains := plookup "include_domains" p
  exclude_domains := plookup "exclude_domains" p

/-- `typeof params.query === "string" ? params.query.trim() : ""`
(`src/index.ts` lines 249-250). -/
def resolveQuery (pv : ParamsView) : String :=
  match asStr pv.query with
  | some s => jsTrim s
  | none => ""

/-- Per-call result-count clamp (`src/index.ts` lines 266-269):
`Math.max(1, Math.min(MAX_RESULTS_CAP, Math.floor(params.count)))`
when `count` is a number, else the configured default. -/
def resolveCount (deflt : ℤ) (o : Option ℚ) : ℤ :=
  match o with
  | some v => max 1 (min MAX_RESULTS_CAP ⌊v⌋)
  | none => deflt

/-- Domain-list filtering (`src/index.ts` lines 298-308): keep the
entries that are strings with non-empty trim. -/
def filterDomains (l : List DynVal) : List String :=
  l.filterMap fun x =>
    match x with
    | .dstr s => if jsTrim s ≠ "" then some s else none
    | _ => none

/-- The fully resolved effective parameters of one search call
(`src/index.ts` lines 266-308). -/
structure SearchSpec where
  query : String
  count : ℤ
  searchDepth : String
  includeAnswer : Bool
  includeRawContent : Bool
  topic : String
  days : Option ℤ
  includeDomains : Option (List String)
  excludeDomains : Option (List String)
deriving DecidableEq

/-- Resolve a `ParamsView` against the configured defaults; `none`
exactly when the query is missing, non-string, or trims to empty
(`src/index.ts` lines 249-308). -/
def resolveSearchSpecV (cfg : SearchConfig) (pv : ParamsView) :
    Option SearchSpec :=
  let query := resolveQuery pv
  if query = "" then none
  else
    let count := resolveCount cfg.defaultMaxResults (asNum pv.count)
    let searchDepth :=
      match asStr pv.search_depth with
      | some s => if s = "basic" ∨ s = "advanced" then s else cfg.defaultSearchDepth
      | none => cfg.defaultSearchDepth
    let includeAnswer := (asBool pv.include_answer).getD cfg.defaultIncludeAnswer
    let includeRawContent :=
      (asBool pv.include_raw_content).getD cfg.defaultIncludeRawContent
    let topic :=
      match asStr pv.topic with
      | some s => if s = "general" ∨ s = "news" then s else "general"
      | none => "general"
    let days :=
      match asNum pv.days with
      | some v => if topic = "news" ∧ 0 < v then some ⌊v⌋ else none
      | none => none
    let includeDomains := (asArr pv.include_domains).map filterDomains
    let excludeDomains := (asArr pv.exclude_domains).map filterDomains
    some ⟨query, count, searchDepth, includeAnswer, includeRawContent,
      topic, days, includeDomains, excludeDomains⟩

/-- Resolution straight from the raw params object. -/
def resolveSearchSpec (cfg : SearchConfig) (p : RawParams) : Option SearchSpec :=
  resolveSearchSpecV cfg (paramsView p)

/-- JS `String(b)` for a boolean in a template/join position. -/
def boolStr (b : Bool) : String :=
  if b then "true" else "false"

/-- `days ?? "default"` component of the cache key. -/
def daysStr : Option ℤ → String
  | some d => toString d
  | none => "default"

/-- Cache-key derivation (`src/index.ts` lines 311-324): the `:`-join
of the effective parameters, lower-cased.  (`[..].join(":")` is written
as the equivalent explicit concatenation.) -/
def searchCacheKey (spec : SearchSpec) : String :=
  jsToLower ("tavily" ++ ":" ++ spec.query ++ ":" ++ toString spec.count ++ ":" ++
    spec.searchDepth ++ ":" ++ boolStr spec.includeAnswer ++ ":" ++
    boolStr spec.includeRawContent ++ ":" ++ spec.topic ++ ":" ++
    daysStr spec.days ++ ":" ++
    String.intercalate "," (spec.includeDomains.getD []) ++ ":" ++
    String.intercalate "," (spec.excludeDomains.getD []))

-- ---------------------------------------------------------------------------
-- tavily_search: payload formatting and execution (`src/index.ts` 326-462)
-- ---------------------------------------------------------------------------

/-- One entry of `data.results` as delivered by the provider.  Fields
the code defends against being absent are `Option`s; `score` is copied
verbatim and stays opaque (type parameter `V`). -/
structure RawResult (V : Type) where
  title : Option String
  url : Option String
  content : Option String
  raw_content : Option String
  score : V
deriving DecidableEq

/-- One formatted result object (`src/index.ts` lines 420-429). -/
structure FormattedRes (V : Type) where
  title : String
  url : String
  snippet : String
  rawContent : Option String
  score : V
  siteName : Option String
deriving DecidableEq

/-- A parsed provider success body (`TavilySearchResponse`,
`src/index.ts` lines 47-53); `response_time` and image objects stay
opaque. -/
structure TavilyData (V : Type) where
  query : Option String
  answer : Option String
  results : Option (List (RawResult V))
  response_time : V
  images : Option (List V)
deriving DecidableEq

/-- A JSON value appearing in a formatted payload. -/
inductive PVal (V : Type) where
  | pstr : String → PVal V
  | pnum : ℚ → PVal V
  | pbool : Bool → PVal V
  | pres : List (FormattedRes V) → PVal V
  | pimgs : List V → PVal V
  | praw : V → PVal V
  | pstrs : List String → PVal V
deriving DecidableEq

/-- A formatted result payload: JSON object in property order. -/
abbrev Payload (V : Type) := List (String × PVal V)

/-- Object spread-with-override `\x7b...obj, k: v\x7d`: replace the
binding in place if present, else append. -/
def objSet (o : Payload V) (k : String) (v : PVal V) : Payload V :=
  match o with
  | [] => [(k, v)]
  | (k', v') :: t => if k' = k then (k, v) :: t else (k', v') :: objSet t k v

/-- Format one provider result (`src/index.ts` lines 420-429).
`hostOf` abstracts `siteName(r.url) || undefined` (URL parsing is
JS-library behaviour). -/
def formatResult (includeRawContent : Bool)
    (hostOf : Option String → Option String) (r : RawResult V) :
    FormattedRes V where
  title := r.title.getD ""
  url := r.url.getD ""
  snippet := r.content.getD ""
  rawContent :=
    if includeRawContent ∧ truthyStr r.raw_content then r.raw_content else none
  score := r.score
  siteName := hostOf r.url

/-- Build the success payload (`src/index.ts` lines 420-448). -/
def buildPayload (spec : SearchSpec)
    (hostOf : Option String → Option String) (data : TavilyData V)
    (tookMs : ℤ) : Payload V :=
  let results := (data.results.getD []).map
    (formatResult spec.includeRawContent hostOf)
  [("query", .pstr ((data.query).getD spec.query)),
   ("provider", .pstr "tavily"),
   ("searchDepth", .pstr spec.searchDepth),
   ("topic", .pstr spec.topic),
   ("count", .pnum results.length),
   ("tookMs", .pnum tookMs),
   ("tavilyResponseTime", .praw data.response_time),
   ("results", .pres results)] ++
  (if spec.includeAnswer ∧ truthyStr data.answer then
    [("answer", .pstr (data.answer.getD ""))] else []) ++
  (match data.images with
   | some imgs => if 0 < imgs.length then [("images", .pimgs imgs)] else []
   | none => [])

/-- Outcome of the single outbound search HTTP call, as seen by the
surrounding `try`: a non-ok response (with its status, status text and
possibly unreadable body text), a thrown transport error (network
failure, timeout abort, or a body-reading failure), or a parsed
success body. -/
inductive FetchOutcome (V : Type) where
  | httpError (status : ℕ) (statusText : String) (bodyText : Option String)
  | netError (message : String)
  | success (data : TavilyData V)

/-- `detail || res.statusText` where `detail` is the body text or ""
when reading it threw (`src/index.ts` lines 375-382). -/
def pickMsg (bodyText : Option String) (statusText : String) : String :=
  if bodyText.getD "" = "" then statusText else bodyText.getD ""

/-- The tool result of one search invocation (the JSON object
serialized into the returned text content). -/
inductive SearchOut (V : Type) where
  | errMissingQuery
  | hit (payload : Payload V)
  | apiErr (status : ℕ) (message : String)
  | fetchErr (message : String)
  | ok (payload : Payload V)
deriving DecidableEq

/-- Machine-readable error code carried by a search result. -/
def searchErrorCode : SearchOut V → Option String
  | .errMissingQuery => some "missing_query"
  | .apiErr _ _ => some "tavily_api_error"
  | .fetchErr _ => some "tavily_fetch_error"
  | .hit _ => none
  | .ok _ => none

/-- Observable effect of one search invocation: the result, the cache
state afterwards, and whether an outbound HTTP call respectively any
cache operation happened. -/
structure SearchExec (V : Type) where
  out : SearchOut V
  cache : Cache (Payload V)
  fetchIssued : Bool
  cacheTouched : Bool
deriving DecidableEq

/-- The `tavily_search` `execute` function (`src/index.ts` lines
247-462).  `tRead`/`tWrite` are the `Date.now()` instants of the cache
read and write; `tookMs` is the measured request duration. -/
def tavilySearchExec (cfg : SearchConfig) (p : RawParams)
    (hostOf : Option String → Option String) (c : Cache (Payload V))
    (outcome : FetchOutcome V) (tRead tWrite tookMs : ℤ) : SearchExec V :=
  match resolveSearchSpec cfg p with
  | none => ⟨.errMissingQuery, c, false, false⟩
  | some spec =>
    let key := searchCacheKey spec
    match readCache c tRead key with
    | (some payload, c1) => ⟨.hit (objSet payload "cached" (.pbool true)), c1, false, true⟩
    | (none, c1) =>
      match outcome with
      | .httpError st stext btext => ⟨.apiErr st (pickMsg btext stext), c1, true, true⟩
      | .netError m => ⟨.fetchErr m, c1, true, true⟩
      | .success data =>
        let payload := buildPayload spec hostOf data tookMs
        ⟨.ok payload, writeCache c1 tWrite key payload cfg.cacheTtlMs, true, true⟩

-- ---------------------------------------------------------------------------
-- tavily_crawl: numeric clamping (`src/unnamed/part_001` lines 1043-1044)
-- ---------------------------------------------------------------------------

/-- `body.max_depth = Math.max(1, Math.min(5, Math.floor(params.max_depth)))`
when `max_depth` is a number; the field is omitted otherwise. -/
def crawlBodyMaxDepth (p : RawParams) : Option ℤ :=
  match asNum (plookup "max_depth" p) with
  | some v => some (max 1 (min 5 ⌊v⌋))
  | none => none

-- ---------------------------------------------------------------------------
-- tavily_research: create-then-poll workflow (`src/unnamed/part_001`
-- lines 1236-1373)
-- ---------------------------------------------------------------------------

/-- `RESEARCH_POLL_INTERVAL` (`src/unnamed/part_001` line 1257),
milliseconds between polls. -/
def RESEARCH_POLL_INTERVAL : ℕ := 2000

/-- `RESEARCH_MAX_WAIT` (`src/unnamed/part_001` line 1258):
`defaultTimeout * 5 * 1000` milliseconds. -/
def researchMaxWait (defaultTimeoutSeconds : ℕ) : ℕ :=
  defaultTimeoutSeconds * 5 * 1000

/-- A parsed research status body: the fields the poll loop inspects. -/
structure PollData where
  status : Option String
  output : Option String
deriving DecidableEq

/-- A parsed research create body: the fields the create step
inspects. -/
structure CreateData where
  status : Option String
  request_id : Option String
deriving DecidableEq

/-- Outcome of one status-poll HTTP request. -/
inductive PollReply where
  | httpErr (status : ℕ) (statusText : String) (bodyText : Option String)
  | okJson (d : PollData)
deriving DecidableEq

/-- Outcome of the create HTTP request. -/
inductive CreateReply where
  | httpErr (status : ℕ) (statusText : String) (bodyText : Option String)
  | okJson (d : CreateData)
deriving DecidableEq

/-- How the loop body dispatches on one ok status body. -/
inductive StepKind where
  | exitCompleted
  | exitFailed
  | cont
deriving DecidableEq

/-- Dispatch of the poll loop body on a parsed status body
(`src/unnamed/part_001` lines 1326-1346): completed when the status is
`"completed"` or the output field is truthy; failed when the status is
`"failed"` or `"error"`; otherwise keep polling. -/
def pollStep (d : PollData) : StepKind :=
  if d.status = some "completed" ∨ truthyStr d.output then .exitCompleted
  else if d.status = some "failed" ∨ d.status = some "error" then .exitFailed
  else .cont

/-- The final result of one research invocation. -/
inductive ResearchOut where
  | apiErr (status : ℕ) (message : String)
  | immediate (d : CreateData) (tookMs : ℕ)
  | completedR (d : PollData) (tookMs : ℕ)
  | failedR (d : PollData)
  | timeoutR (requestId : String) (tookMs : ℕ)
deriving DecidableEq

/-- Machine-readable error code carried by a research result. -/
def researchErrorCode : ResearchOut → Option String
  | .apiErr _ _ => some "tavily_api_error"
  | .failedR _ => some "tavily_research_failed"
  | .timeoutR _ _ => some "tavily_research_timeout"
  | .immediate _ _ => none
  | .completedR _ _ => none

/-- The poll loop (`src/unnamed/part_001` lines 1303-1362).

State: `i` polls have been issued so far and `elapsed` milliseconds
have passed since `start`.  While `Date.now() - start <
RESEARCH_MAX_WAIT`, the loop sleeps `RESEARCH_POLL_INTERVAL`
milliseconds, issues poll `i` (taking `dur i` further milliseconds,
`reply i` being its outcome) and dispatches; leaving the loop returns
the `tavily_research_timeout` result that carries the job id.  The
second component of the result is the total number of poll requests
issued. -/
def researchPollLoop (maxWait : ℕ) (reply : ℕ → PollReply) (dur : ℕ → ℕ)
    (requestId : String) (i elapsed : ℕ) : ResearchOut × ℕ :=
  if _h : elapsed < maxWait then
    let elapsed1 := elapsed + RESEARCH_POLL_INTERVAL + dur i
    match reply i with
    | .httpErr st stext btext => (.apiErr st (pickMsg btext stext), i + 1)
    | .okJson d =>
      match pollStep d with
      | .exitCompleted => (.completedR d elapsed1, i + 1)
      | .exitFailed => (.failedR d, i + 1)
      | .cont => researchPollLoop maxWait reply dur requestId (i + 1) elapsed1
  else (.timeoutR requestId elapsed, i)
termination_by maxWait - elapsed
decreasing_by simp [RESEARCH_POLL_INTERVAL]; omega

/-- The `tavily_research` `execute` function after validation and body
assembly (`src/unnamed/part_001` lines 1260-1362): issue the create
request (taking `createDur` milliseconds); a non-ok response is an API
error; a body that is not pending or carries no truthy `request_id`
is returned immediately; otherwise the poll loop runs.  Returns the
result together with the number of poll requests issued. -/
def tavilyResearchExec (maxWait : ℕ) (create : CreateReply)
    (createDur : ℕ) (reply : ℕ → PollReply) (dur : ℕ → ℕ) :
    ResearchOut × ℕ :=
  match create with
  | .httpErr st stext btext => (.apiErr st (pickMsg btext stext), 0)
  | .okJson d =>
    if d.status ≠ some "pending" ∨ ¬ truthyStr d.request_id then
      (.immediate d createDur, 0)
    else
      researchPollLoop maxWait reply dur (d.request_id.getD "") 0 createDur

-- ---------------------------------------------------------------------------
-- Outbound call sites and their timeout wiring
-- ---------------------------------------------------------------------------

/-- Structural record of one outbound `fetch` call site: its endpoint,
HTTP method, and whether the call attaches an `AbortController` whose
`abort` is scheduled after the configured timeout (i.e. whether a
`signal` tied to a timeout is passed in the fetch options). -/
structure OutboundCall where
  endpoint : String
  method : String
  hasTimeoutAbort : Bool
deriving DecidableEq

/-- The search fetch (`src/index.ts` lines 359-370, and
`src/unnamed/part_001` lines 808-822): abort scheduled after
`defaultTimeout * 1000` ms. -/
def searchCall : OutboundCall :=
  ⟨"https://api.tavily.com/search", "POST", true⟩

/-- The extract fetch (`src/unnamed/part_001` lines 965-976). -/
def extractCall : OutboundCall :=
  ⟨"https://api.tavily.com/extract", "POST", true⟩

/-- The crawl fetch (`src/unnamed/part_001` lines 1072-1083). -/
def crawlCall : OutboundCall :=
  ⟨"https://api.tavily.com/crawl", "POST", true⟩

/-- The map fetch (`src/unnamed/part_001` lines 1172-1183). -/
def mapCall : OutboundCall :=
  ⟨"https://api.tavily.com/map", "POST", true⟩

/-- The research create fetch (`src/unnamed/part_001` lines
1263-1270): its options carry method, headers and body only — no
`AbortController`, no `signal`, no timer. -/
def researchCreateCall : OutboundCall :=
  ⟨"https://api.tavily.com/research", "POST", false⟩

/-- The research status-poll fetch (`src/unnamed/part_001` lines
1306-1309): options carry method and headers only — no
`AbortController`, no `signal`, no timer. -/
def researchPollCall : OutboundCall :=
  ⟨"https://api.tavily.com/research/", "GET", false⟩

-- ---------------------------------------------------------------------------
-- Cache lemmas
-- ---------------------------------------------------------------------------

theorem mapGet_mapSet_self (c : Cache α) (k : String) (e : CacheEntry α) :
    mapGet (mapSet c k e) k = some e := by
  induction c with
  | nil => simp [mapSet, mapGet]
  | cons hd t ih =>
    obtain ⟨k', e'⟩ := hd
    by_cases h : k' = k
    · simp [mapSet, mapGet, h]
    · simp [mapSet, mapGet, h, ih]

theorem mapGet_mapDelete_self (c : Cache α) (k : String) :
    mapGet (mapDelete c k) k = none := by
  induction c with
  | nil => simp [mapDelete, mapGet]
  | cons hd t ih =>
    obtain ⟨k', e'⟩ := hd
    by_cases h : k' = k
    · simpa [mapDelete, h] using ih
    · simpa [mapDelete, mapGet, h] using ih

theorem mem_mapSet (c : Cache α) (k : String) (e : CacheEntry α)
    (x : String × CacheEntry α) (hx : x ∈ mapSet c k e) :
    x ∈ c ∨ x = (k, e) := by
  induction c with
  | nil => simpa [mapSet] using hx
  | cons hd t ih =>
    obtain ⟨k', e'⟩ := hd
    by_cases h : k' = k
    · simp only [mapSet, if_pos h, List.mem_cons] at hx
      rcases hx with hx | hx
      · exact Or.inr hx
      · exact Or.inl (List.mem_cons_of_mem _ hx)
    · simp only [mapSet, if_neg h, List.mem_cons] at hx
      rcases hx with hx | hx
      · exact Or.inl (by simp [hx])
      · rcases ih hx with h1 | h1
        · exact Or.inl (List.mem_cons_of_mem _ h1)
        · exact Or.inr h1

theorem length_mapSet_le (c : Cache α) (k : String) (e : CacheEntry α) :
    (mapSet c k e).length ≤ c.length + 1 := by
  induction c with
  | nil => simp [mapSet]
  | cons hd t ih =>
    obtain ⟨k', e'⟩ := hd
    by_cases h : k' = k
    · simp [mapSet, h]
    · simp only [mapSet, if_neg h, List.length_cons]
      omega

theorem length_readCache_le (c : Cache α) (now : ℤ) (k : String) :
    (readCache c now k).2.length ≤ c.length := by
  unfold readCache
  cases mapGet c k with
  | none => simp
  | some e =>
    by_cases h : e.expiresAt < now
    · simpa [h, mapDelete] using List.length_filter_le _ c
    · simp [h]

theorem length_writeCache_le (c : Cache α) (now : ℤ) (k : String)
    (v : α) (ttl : ℤ) (hc : c.length ≤ MAX_CACHE_ENTRIES) :
    (writeCache c now k v ttl).length ≤ MAX_CACHE_ENTRIES := by
  unfold writeCache
  by_cases h : ttl ≤ 0
  · simpa [h] using hc
  · rw [if_neg h]
    by_cases hfull : MAX_CACHE_ENTRIES ≤ c.length
    · have h1 := length_mapSet_le (c.drop 1) k (⟨v, now + ttl⟩ : CacheEntry α)
      have h2 : (c.drop 1).length = c.length - 1 := by simp
      simp only [if_pos hfull]
      have : 1 ≤ c.length := le_trans (by norm_num [MAX_CACHE_ENTRIES]) hfull
      omega
    · have h1 := length_mapSet_le c k (⟨v, now + ttl⟩ : CacheEntry α)
      simp only [if_neg hfull]
      omega

theorem length_applyOps_le (ops : List (CacheOp α)) :
    ∀ c : Cache α, c.length ≤ MAX_CACHE_ENTRIES →
      (applyOps c ops).length ≤ MAX_CACHE_ENTRIES := by
  induction ops with
  | nil => intro c hc; simpa [applyOps] using hc
  | cons op t ih =>
    intro c hc
    have hstep : (applyOp c op).length ≤ MAX_CACHE_ENTRIES := by
      cases op with
      | read k now => exact le_trans (length_readCache_le c now k) hc
      | write k v ttl now => exact length_writeCache_le c now k v ttl hc
    simpa [applyOps, List.foldl_cons] using ih (applyOp c op) hstep

theorem writeCache_pos_mapGet (c : Cache α) (now : ℤ) (k : String)
    (v : α) (ttl : ℤ) (h : 0 < ttl) :
    mapGet (writeCache c now k v ttl) k = some ⟨v, now + ttl⟩ := by
  unfold writeCache
  rw [if_neg (by omega)]
  exact mapGet_mapSet_self _ k _

-- ---------------------------------------------------------------------------
-- Claim C3
-- ---------------------------------------------------------------------------

/-- **C3, counterexample.**  The claim says a `get` at
`now = insertion_time + ttl` (so `now ≥ insertion_time + ttl`) returns
absent; the code expires only on `Date.now() > expiresAt` (strict), so
after `put` at time `0` with `ttl = 5`, the `get` at `now = 5` still
returns the value. -/
theorem c3_boundary_counterexample :
    ((0 : ℤ) + 5 ≤ 5) ∧
    (readCache (writeCache ([] : Cache ℤ) 0 "k" 7 5) 5 "k").1 = some 7 := by
  exact ⟨by decide, by decide⟩

/-- **C3 (amended).**  For every cache key `k`, value `v` and
`ttl > 0`: a `get(k)` after `put(k, v, ttl)` returns `v` at every time
`now ≤ insertion_time + ttl`, and returns absent at every time
`now > insertion_time + ttl`; in the expired case the entry is removed
from the cache as a side effect of the `get` (the resulting cache no
longer binds `k`). -/
theorem c3_get_after_put (α : Type) (c : Cache α) (k : String) (v : α)
    (ttl t0 now : ℤ) (httl : 0 < ttl) :
    (now ≤ t0 + ttl →
      readCache (writeCache c t0 k v ttl) now k =
        (some v, writeCache c t0 k v ttl)) ∧
    (t0 + ttl < now →
      readCache (writeCache c t0 k v ttl) now k =
        (none, mapDelete (writeCache c t0 k v ttl) k) ∧
      mapGet (mapDelete (writeCache c t0 k v ttl) k) k = none) := by
  have hget := writeCache_pos_mapGet c t0 k v ttl httl
  constructor
  · intro hnow
    unfold readCache
    rw [hget]
    simp only
    rw [if_neg (by omega)]
  · intro hnow
    refine ⟨?_, mapGet_mapDelete_self _ k⟩
    unfold readCache
    rw [hget]
    simp only
    rw [if_pos (by omega)]

/-- **C3 witness.**  Concrete instance of the amended statement. -/
theorem c3_get_after_put_witness :
    (0 : ℤ) < 5 ∧
    readCache (writeCache ([] : Cache ℤ) 0 "k" 7 5) 5 "k" =
      (some 7, writeCache ([] : Cache ℤ) 0 "k" 7 5) ∧
    (readCache (writeCache ([] : Cache ℤ) 0 "k" 7 5) 6 "k").1 = none := by
  refine ⟨by decide, (c3_get_after_put ℤ [] "k" 7 5 0 5 (by decide)).1 (by decide), ?_⟩
  rw [((c3_get_after_put ℤ [] "k" 7 5 0 6 (by decide)).2 (by decide)).1]

-- ---------------------------------------------------------------------------
-- Claim C4
-- ---------------------------------------------------------------------------

/-- A concrete cache holding `MAX_CACHE_ENTRIES` distinct keys. -/
def bigCache : Cache ℤ :=
  (List.range MAX_CACHE_ENTRIES).map fun i => (toString i, ⟨0, 1⟩)

/-- **C4, counterexample.**  The claim says *every* `writeCache`
performed at or above capacity evicts one entry and inserts the new
one; but `writeCache` with `ttlMs ≤ 0` is a no-op (`src/index.ts` line
89) — at full capacity it evicts nothing and inserts nothing, so the
newest insert is not preserved. -/
theorem c4_ttl_zero_counterexample :
    MAX_CACHE_ENTRIES ≤ bigCache.length ∧
    writeCache bigCache 0 "newkey" (0 : ℤ) 0 = bigCache ∧
    mapGet bigCache "newkey" = none := by
  refine ⟨by decide, ?_, by decide⟩
  unfold writeCache
  rw [if_pos (by decide)]

/-- **C4 (amended).**  After any sequence of `readCache`/`writeCache`
operations from the empty cache, the entry count never exceeds
`MAX_CACHE_ENTRIES = 100`.  Every `writeCache` with `ttl > 0`
performed while the cache is at or above that maximum first evicts
exactly one entry — the one first in insertion order — and then
inserts the new entry, so that write's insert is always present
afterwards.  (`writeCache` with `ttl ≤ 0` is a no-op.) -/
theorem c4_bounded_fifo :
    (∀ (α : Type) (ops : List (CacheOp α)),
      (applyOps ([] : Cache α) ops).length ≤ MAX_CACHE_ENTRIES) ∧
    (∀ (α : Type) (c : Cache α) (k : String) (v : α) (ttl now : ℤ),
      0 < ttl → MAX_CACHE_ENTRIES ≤ c.length →
      writeCache c now k v ttl = mapSet (c.drop 1) k ⟨v, now + ttl⟩ ∧
      mapGet (writeCache c now k v ttl) k = some ⟨v, now + ttl⟩) ∧
    (∀ (α : Type) (c : Cache α) (now ttl : ℤ) (k : String) (v : α),
      ttl ≤ 0 → writeCache c now k v ttl = c) := by
  refine ⟨?_, ?_, ?_⟩
  · intro α ops
    exact length_applyOps_le ops [] (by simp)
  · intro α c k v ttl now httl hfull
    constructor
    · unfold writeCache
      rw [if_neg (by omega), if_pos hfull]
    · exact writeCache_pos_mapGet c now k v ttl httl
  · intro α c now ttl k v httl
    unfold writeCache
    rw [if_pos httl]

/-- **C4 witness.**  Concrete instance: a write with positive ttl on a
full cache drops the oldest entry and appends the new one. -/
theorem c4_bounded_fifo_witness :
    (0 : ℤ) < 5 ∧ MAX_CACHE_ENTRIES ≤ bigCache.length ∧
    writeCache bigCache 0 "newkey" (3 : ℤ) 5 =
      mapSet (bigCache.drop 1) "newkey" ⟨3, 0 + 5⟩ ∧
    mapGet (writeCache bigCache 0 "newkey" (3 : ℤ) 5) "newkey" =
      some ⟨3, 0 + 5⟩ := by
  refine ⟨by decide, by decide, ?_, ?_⟩
  · exact (c4_bounded_fifo.2.1 ℤ bigCache "newkey" 3 5 0 (by decide) (by decide)).1
  · exact (c4_bounded_fifo.2.1 ℤ bigCache "newkey" 3 5 0 (by decide) (by decide)).2

-- ---------------------------------------------------------------------------
-- readCache / writeCache frame lemmas
-- ---------------------------------------------------------------------------

theorem readCache_hit_frame (c : Cache α) (now : ℤ) (k : String) (v : α)
    (c' : Cache α) (h : readCache c now k = (some v, c')) : c' = c := by
  unfold readCache at h
  split at h
  · exact absurd h (by simp)
  · split at h
    · exact absurd h (by simp)
    · have := congrArg Prod.snd h
      simpa using this.symm

theorem readCache_miss_not_bound (c : Cache α) (now : ℤ) (k : String)
    (h : (readCache c now k).1 = none) :
    mapGet (readCache c now k).2 k = none := by
  unfold readCache at h ⊢
  split at h
  · next hg => simpa using hg
  · next e hg =>
    by_cases he : e.expiresAt < now
    · rw [if_pos he]
      simpa using mapGet_mapDelete_self c k
    · rw [if_neg he] at h
      simp at h

theorem readCache_not_bound (c : Cache α) (now : ℤ) (k : String)
    (h : mapGet c k = none) : readCache c now k = (none, c) := by
  unfold readCache
  rw [h]

theorem mem_readCache_snd (c : Cache α) (now : ℤ) (k : String)
    (x : String × CacheEntry α) (hx : x ∈ (readCache c now k).2) : x ∈ c := by
  unfold readCache at hx
  split at hx
  · exact hx
  · split at hx
    · exact (List.mem_filter.mp hx).1
    · exact hx

theorem mem_writeCache (c : Cache α) (now : ℤ) (k : String) (v : α)
    (ttl : ℤ) (x : String × CacheEntry α)
    (hx : x ∈ writeCache c now k v ttl) :
    x ∈ c ∨ x = (k, ⟨v, now + ttl⟩) := by
  unfold writeCache at hx
  by_cases h : ttl ≤ 0
  · rw [if_pos h] at hx; exact Or.inl hx
  · rw [if_neg h] at hx
    by_cases hfull : MAX_CACHE_ENTRIES ≤ c.length
    · rw [if_pos hfull] at hx
      rcases mem_mapSet _ _ _ _ hx with h1 | h1
      · exact Or.inl (List.mem_of_mem_drop h1)
      · exact Or.inr h1
    · rw [if_neg hfull] at hx
      exact mem_mapSet _ _ _ _ hx

-- ---------------------------------------------------------------------------
-- Claim C6
-- ---------------------------------------------------------------------------

/-- **C6.**  A search invocation with a valid query and a cache miss
whose provider call returns a non-success HTTP status yields the
`tavily_api_error` result carrying that status and the body text (or
the status text when the body is empty/unreadable), and writes
nothing: the final cache is exactly the post-read cache, it does not
bind the request's key, and when the key was not bound before the call
the cache is completely unchanged. -/
theorem c6_api_error_no_write (V : Type) (cfg : SearchConfig)
    (p : RawParams) (hostOf : Option String → Option String)
    (c : Cache (Payload V)) (spec : SearchSpec) (st : ℕ)
    (stext : String) (btext : Option String) (tRead tWrite tookMs : ℤ)
    (hspec : resolveSearchSpec cfg p = some spec)
    (hmiss : (readCache c tRead (searchCacheKey spec)).1 = none) :
    (tavilySearchExec cfg p hostOf c (.httpError st stext btext)
        tRead tWrite tookMs).out = .apiErr st (pickMsg btext stext) ∧
    searchErrorCode ((tavilySearchExec cfg p hostOf c
        (.httpError st stext btext) tRead tWrite tookMs).out) =
      some "tavily_api_error" ∧
    (tavilySearchExec cfg p hostOf c (.httpError st stext btext)
        tRead tWrite tookMs).cache =
      (readCache c tRead (searchCacheKey spec)).2 ∧
    mapGet ((tavilySearchExec cfg p hostOf c (.httpError st stext btext)
        tRead tWrite tookMs).cache) (searchCacheKey spec) = none ∧
    (mapGet c (searchCacheKey spec) = none →
      (tavilySearchExec cfg p hostOf c (.httpError st stext btext)
        tRead tWrite tookMs).cache = c) := by
  have hred : tavilySearchExec cfg p hostOf c (.httpError st stext btext)
      tRead tWrite tookMs =
      ⟨.apiErr st (pickMsg btext stext),
        (readCache c tRead (searchCacheKey spec)).2, true, true⟩ := by
    rcases hR : readCache c tRead (searchCacheKey spec) with ⟨o, c1⟩
    rw [hR] at hmiss
    simp at hmiss
    subst hmiss
    simp only [tavilySearchExec, hspec, hR]
  rw [hred]
  refine ⟨rfl, rfl, rfl, ?_, ?_⟩
  · exact readCache_miss_not_bound c tRead (searchCacheKey spec) hmiss
  · intro hnone
    rw [readCache_not_bound c tRead (searchCacheKey spec) hnone]

/-- A concrete configuration (the hard defaults of `register`). -/
def cfg0 : SearchConfig :=
  ⟨"advanced", 5, true, false, 30, 900000⟩

/-- A concrete valid raw parameter object. -/
def p0 : RawParams := [("query", .dstr "hello")]

/-- The resolved spec of `p0` under `cfg0`. -/
def spec0 : SearchSpec :=
  ⟨"hello", 5, "advanced", true, false, "general", none, none, none⟩

/-- **C6 witness.**  A 401 with body text on an empty cache. -/
theorem c6_api_error_no_write_witness :
    resolveSearchSpec cfg0 p0 = some spec0 ∧
    (tavilySearchExec (V := Unit) cfg0 p0 (fun _ => none) []
        (.httpError 401 "Unauthorized" (some "bad key")) 0 0 0).out =
      .apiErr 401 "bad key" ∧
    (tavilySearchExec (V := Unit) cfg0 p0 (fun _ => none) []
        (.httpError 401 "Unauthorized" (some "bad key")) 0 0 0).cache = [] := by
  have h := c6_api_error_no_write Unit cfg0 p0 (fun _ => none) [] spec0
    401 "Unauthorized" (some "bad key") 0 0 0 (by decide) (by decide)
  exact ⟨by decide, h.1, h.2.2.2.2 (by decide)⟩

-- ---------------------------------------------------------------------------
-- Claim C7
-- ---------------------------------------------------------------------------

theorem resolveSearchSpecV_empty_query (cfg : SearchConfig)
    (pv : ParamsView) (h : resolveQuery pv = "") :
    resolveSearchSpecV cfg pv = none := by
  simp [resolveSearchSpecV, h]

/-- **C7.**  A search invocation whose query is absent, not a string,
or empty after trimming (each of which makes the resolved query empty)
returns the `missing_query` error, issues no outbound HTTP call, and
neither reads nor writes the cache: the whole execution is the early
return with the cache untouched. -/
theorem c7_missing_query (V : Type) (cfg : SearchConfig) (p : RawParams)
    (hostOf : Option String → Option String) (c : Cache (Payload V))
    (outcome : FetchOutcome V) (tRead tWrite tookMs : ℤ)
    (hq : resolveQuery (paramsView p) = "") :
    tavilySearchExec cfg p hostOf c outcome tRead tWrite tookMs =
      ⟨.errMissingQuery, c, false, false⟩ ∧
    searchErrorCode (SearchOut.errMissingQuery (V := V)) =
      some "missing_query" := by
  refine ⟨?_, rfl⟩
  have hnone : resolveSearchSpec cfg p = none :=
    resolveSearchSpecV_empty_query cfg (paramsView p) hq
  simp only [tavilySearchExec, hnone]

/-- **C7 witness.**  A whitespace-only query on a non-empty cache. -/
theorem c7_missing_query_witness :
    resolveQuery (paramsView [("query", .dstr "  ")]) = "" ∧
    tavilySearchExec (V := Unit) cfg0 [("query", .dstr "  ")]
        (fun _ => none) [] (.netError "unused") 0 0 0 =
      ⟨.errMissingQuery, [], false, false⟩ := by
  refine ⟨by decide, ?_⟩
  exact (c7_missing_query Unit cfg0 [("query", .dstr "  ")] (fun _ => none)
    [] (.netError "unused") 0 0 0 (by decide)).1

-- ---------------------------------------------------------------------------
-- Claim C10
-- ---------------------------------------------------------------------------

theorem buildPayload_no_cached (V : Type) (spec : SearchSpec)
    (hostOf : Option String → Option String) (data : TavilyData V)
    (tookMs : ℤ) :
    "cached" ∉ (buildPayload spec hostOf data tookMs).map Prod.fst := by
  intro hmem
  simp only [buildPayload, List.map_append, List.mem_append] at hmem
  rcases hmem with (h | h) | h
  · simp at h
  · split at h <;> simp at h
  · rcases hi : data.images with _ | imgs
    · rw [hi] at h; simp at h
    · rw [hi] at h
      split at h <;> simp at h

/-- **C10.**  A cache hit leaves the cache state entirely unchanged:
`readCache` on a non-expired entry mutates nothing (no value change,
no TTL refresh, no reordering), and the whole hit path of the search
tool returns the stored payload with the extra field `cached: true`
appended, issuing no HTTP call; payloads built for storage never
contain a `cached` field, and that property of every stored value is
preserved by every search execution. -/
theorem c10_hit_frame_no_cached_field :
    (∀ (α : Type) (c : Cache α) (now : ℤ) (k : String) (v : α)
        (c' : Cache α), readCache c now k = (some v, c') → c' = c) ∧
    (∀ (V : Type) (cfg : SearchConfig) (p : RawParams)
        (hostOf : Option String → Option String) (c : Cache (Payload V))
        (outcome : FetchOutcome V) (tRead tWrite tookMs : ℤ)
        (spec : SearchSpec) (payload : Payload V),
      resolveSearchSpec cfg p = some spec →
      (readCache c tRead (searchCacheKey spec)).1 = some payload →
      tavilySearchExec cfg p hostOf c outcome tRead tWrite tookMs =
        ⟨.hit (objSet payload "cached" (.pbool true)), c, false, true⟩) ∧
    (∀ (V : Type) (spec : SearchSpec)
        (hostOf : Option String → Option String) (data : TavilyData V)
        (tookMs : ℤ),
      "cached" ∉ (buildPayload spec hostOf data tookMs).map Prod.fst) ∧
    (∀ (V : Type) (cfg : SearchConfig) (p : RawParams)
        (hostOf : Option String → Option String) (c : Cache (Payload V))
        (outcome : FetchOutcome V) (tRead tWrite tookMs : ℤ),
      (∀ x ∈ c, "cached" ∉ (x.2.value).map Prod.fst) →
      ∀ x ∈ (tavilySearchExec cfg p hostOf c outcome
          tRead tWrite tookMs).cache,
        "cached" ∉ (x.2.value).map Prod.fst) := by
  refine ⟨fun α => readCache_hit_frame, ?_, buildPayload_no_cached, ?_⟩
  · intro V cfg p hostOf c outcome tRead tWrite tookMs spec payload hspec hhit
    rcases hR : readCache c tRead (searchCacheKey spec) with ⟨o, c1⟩
    rw [hR] at hhit
    simp at hhit
    subst hhit
    have hc1 : c1 = c :=
      readCache_hit_frame c tRead (searchCacheKey spec) payload c1 hR
    subst hc1
    simp only [tavilySearchExec, hspec, hR]
  · intro V cfg p hostOf c outcome tRead tWrite tookMs hc x hx
    cases hspec : resolveSearchSpec cfg p with
    | none =>
      simp only [tavilySearchExec, hspec] at hx
      exact hc x hx
    | some spec =>
      rcases hR : readCache c tRead (searchCacheKey spec) with ⟨o, c1⟩
      have hsub : ∀ y ∈ c1, y ∈ c := by
        intro y hy
        exact mem_readCache_snd c tRead (searchCacheKey spec) y
          (by rw [hR]; exact hy)
      cases o with
      | some payload =>
        simp only [tavilySearchExec, hspec, hR] at hx
        exact hc x (hsub x hx)
      | none =>
        cases outcome with
        | httpError st stext btext =>
          simp only [tavilySearchExec, hspec, hR] at hx
          exact hc x (hsub x hx)
        | netError m =>
          simp only [tavilySearchExec, hspec, hR] at hx
          exact hc x (hsub x hx)
        | success data =>
          simp only [tavilySearchExec, hspec, hR] at hx
          rcases mem_writeCache _ _ _ _ _ _ hx with h1 | h1
          · exact hc x (hsub x h1)
          · rw [h1]
            exact buildPayload_no_cached V spec hostOf data tookMs

/-- A concrete stored payload for the hit witness. -/
def payloadW : Payload Unit := [("query", .pstr "hello")]

/-- A concrete one-entry cache binding the key of `spec0`. -/
def cacheW : Cache (Payload Unit) := [(searchCacheKey spec0, ⟨payloadW, 10⟩)]

/-- **C10 witness.**  Concrete hit: the cache is returned unchanged
and the result is the stored payload plus `cached: true`. -/
theorem c10_hit_frame_no_cached_field_witness :
    readCache cacheW 0 (searchCacheKey spec0) = (some payloadW, cacheW) ∧
    tavilySearchExec (V := Unit) cfg0 p0 (fun _ => none) cacheW
        (.netError "down") 0 0 0 =
      ⟨.hit (objSet payloadW "cached" (.pbool true)), cacheW, false, true⟩ ∧
    "cached" ∉ (buildPayload (V := Unit) spec0 (fun _ => none)
        ⟨none, none, none, (), none⟩ 0).map Prod.fst := by
  refine ⟨by decide, ?_, ?_⟩
  · exact c10_hit_frame_no_cached_field.2.1 Unit cfg0 p0 (fun _ => none)
      cacheW (.netError "down") 0 0 0 spec0 payloadW (by decide) (by decide)
  · exact c10_hit_frame_no_cached_field.2.2.1 Unit spec0 (fun _ => none)
      ⟨none, none, none, (), none⟩ 0

-- ---------------------------------------------------------------------------
-- Claim C8
-- ---------------------------------------------------------------------------

theorem plookup_perm (p₁ p₂ : RawParams) (h : p₁.Perm p₂) :
    (p₁.map Prod.fst).Nodup → ∀ k, plookup k p₁ = plookup k p₂ := by
  induction h with
  | nil => intro _ k; rfl
  | cons x _ ih =>
    intro nd k
    obtain ⟨kx, vx⟩ := x
    simp only [List.map_cons, List.nodup_cons] at nd
    by_cases hk : kx = k
    · simp [plookup, hk]
    · simp only [plookup, if_neg hk]
      exact ih nd.2 k
  | swap x y l =>
    intro nd k
    obtain ⟨kx, vx⟩ := x
    obtain ⟨ky, vy⟩ := y
    simp only [List.map_cons, List.nodup_cons, List.mem_cons] at nd
    by_cases h1 : ky = k <;> by_cases h2 : kx = k
    · exact absurd (h1.trans h2.symm) (fun he => nd.1 (Or.inl he))
    · simp [plookup, h1, h2]
    · simp [plookup, h1, h2]
    · simp [plookup, h1, h2]
  | trans h1 _ ih1 ih2 =>
    intro nd k
    have nd2 : _ := ((h1.map Prod.fst).nodup_iff).mp nd
    exact (ih1 nd k).trans (ih2 nd2 k)

theorem paramsView_perm (p₁ p₂ : RawParams)
    (nd : (p₁.map Prod.fst).Nodup) (h : p₁.Perm p₂) :
    paramsView p₁ = paramsView p₂ := by
  have e : ∀ k, plookup k p₁ = plookup k p₂ := plookup_perm p₁ p₂ h nd
  simp [paramsView, e]

theorem jsToLower_append (s t : String) :
    jsToLower (s ++ t) = jsToLower s ++ jsToLower t := by
  apply String.ext
  simp [jsToLower, String.data_append]

/-- **C8.**  Two invocations whose parameter objects are permutations
of each other (same key-value pairs, any property order) resolve to
the same effective parameters and hence derive the identical cache
key; and since the key is the lower-cased composite, specs whose
queries agree up to letter case derive the identical key as well. -/
theorem c8_cache_key_order_and_case :
    (∀ (cfg : SearchConfig) (p₁ p₂ : RawParams),
      (p₁.map Prod.fst).Nodup → p₁.Perm p₂ →
      resolveSearchSpec cfg p₁ = resolveSearchSpec cfg p₂ ∧
      (resolveSearchSpec cfg p₁).map searchCacheKey =
        (resolveSearchSpec cfg p₂).map searchCacheKey) ∧
    (∀ (spec : SearchSpec) (q₁ q₂ : String),
      jsToLower q₁ = jsToLower q₂ →
      searchCacheKey { spec with query := q₁ } =
        searchCacheKey { spec with query := q₂ }) := by
  constructor
  · intro cfg p₁ p₂ nd h
    have hv : paramsView p₁ = paramsView p₂ := paramsView_perm p₁ p₂ nd h
    unfold resolveSearchSpec
    rw [hv]
    exact ⟨rfl, rfl⟩
  · intro spec q₁ q₂ h
    simp [searchCacheKey, jsToLower_append, h]

/-- Same parameters in one property order... -/
def p1w : RawParams := [("query", .dstr "Hi"), ("count", .dnum 3)]

/-- ...and in the other property order. -/
def p2w : RawParams := [("count", .dnum 3), ("query", .dstr "Hi")]

/-- **C8 witness.**  Concrete permutation and case-variant queries. -/
theorem c8_cache_key_order_and_case_witness :
    (p1w.map Prod.fst).Nodup ∧
    resolveSearchSpec cfg0 p1w = resolveSearchSpec cfg0 p2w ∧
    jsToLower "Hi" = jsToLower "hI" ∧
    searchCacheKey { spec0 with query := "Hi" } =
      searchCacheKey { spec0 with query := "hI" } := by
  refine ⟨by decide, ?_, by decide, ?_⟩
  · exact (c8_cache_key_order_and_case.1 cfg0 p1w p2w (by decide)
      (List.Perm.swap _ _ _)).1
  · exact c8_cache_key_order_and_case.2 spec0 "Hi" "hI" (by decide)

-- ---------------------------------------------------------------------------
-- Claim C9
-- ---------------------------------------------------------------------------

theorem resolveSearchSpec_count (cfg : SearchConfig) (p : RawParams)
    (spec : SearchSpec) (hspec : resolveSearchSpec cfg p = some spec) :
    spec.count = resolveCount cfg.defaultMaxResults
      (asNum (plookup "count" p)) := by
  simp only [resolveSearchSpec, resolveSearchSpecV] at hspec
  split at hspec
  · cases hspec
  · injection hspec with h
    rw [← h]
    rfl

/-- **C9.**  Out-of-range numeric parameters are clamped, never
rejected: a requested search result count of `0` resolves to `1`, of
`999` to `20`, and every number resolves into `[1, 20]`; a requested
crawl `max_depth` of `7` resolves to `5`, and every number resolves
into `[1, 5]`. -/
theorem c9_numeric_clamping :
    (∀ d : ℤ, resolveCount d (some 0) = 1) ∧
    (∀ d : ℤ, resolveCount d (some 999) = 20) ∧
    (∀ (d : ℤ) (v : ℚ),
      1 ≤ resolveCount d (some v) ∧ resolveCount d (some v) ≤ 20) ∧
    (∀ (cfg : SearchConfig) (p : RawParams) (spec : SearchSpec),
      resolveSearchSpec cfg p = some spec →
      plookup "count" p = some (.dnum 0) → spec.count = 1) ∧
    (∀ (cfg : SearchConfig) (p : RawParams) (spec : SearchSpec),
      resolveSearchSpec cfg p = some spec →
      plookup "count" p = some (.dnum 999) → spec.count = 20) ∧
    (∀ p : RawParams, plookup "max_depth" p = some (.dnum 7) →
      crawlBodyMaxDepth p = some 5) ∧
    (∀ (p : RawParams) (d : ℤ), crawlBodyMaxDepth p = some d →
      1 ≤ d ∧ d ≤ 5) := by
  have h0 : ∀ d : ℤ, resolveCount d (some 0) = 1 := by
    intro d
    show max 1 (min MAX_RESULTS_CAP ⌊(0 : ℚ)⌋) = 1
    decide
  have h999 : ∀ d : ℤ, resolveCount d (some 999) = 20 := by
    intro d
    show max 1 (min MAX_RESULTS_CAP ⌊(999 : ℚ)⌋) = 20
    decide
  refine ⟨h0, h999, ?_, ?_, ?_, ?_, ?_⟩
  · intro d v
    simp only [resolveCount, MAX_RESULTS_CAP]
    constructor
    · exact le_max_left 1 _
    · have : min (20 : ℤ) ⌊v⌋ ≤ 20 := min_le_left _ _
      omega
  · intro cfg p spec hspec hcount
    rw [resolveSearchSpec_count cfg p spec hspec, hcount]
    exact h0 _
  · intro cfg p spec hspec hcount
    rw [resolveSearchSpec_count cfg p spec hspec, hcount]
    exact h999 _
  · intro p hp
    simp only [crawlBodyMaxDepth, hp]
    decide
  · intro p d h
    unfold crawlBodyMaxDepth at h
    cases ha : asNum (plookup "max_depth" p) with
    | none => rw [ha] at h; cases h
    | some v =>
      rw [ha] at h
      injection h with h
      have h1 : (1 : ℤ) ≤ max 1 (min 5 ⌊v⌋) := le_max_left 1 _
      have h2 : min (5 : ℤ) ⌊v⌋ ≤ 5 := min_le_left _ _
      omega

/-- **C9 witness.**  Concrete clamps: `0 → 1`, `999 → 20`, `7 → 5`. -/
theorem c9_numeric_clamping_witness :
    resolveCount 5 (some 0) = 1 ∧
    resolveCount 5 (some 999) = 20 ∧
    plookup "max_depth" [("max_depth", DynVal.dnum 7)] =
      some (.dnum 7) ∧
    crawlBodyMaxDepth [("max_depth", DynVal.dnum 7)] = some 5 := by
  refine ⟨c9_numeric_clamping.1 5, c9_numeric_clamping.2.1 5, rfl, ?_⟩
  exact c9_numeric_clamping.2.2.2.2.2.1 [("max_depth", DynVal.dnum 7)] rfl

-- ---------------------------------------------------------------------------
-- Claim C5
-- ---------------------------------------------------------------------------

/-- One unfolding of the poll loop while the budget is not yet
exhausted. -/
theorem researchPollLoop_unfold (maxWait : ℕ) (reply : ℕ → PollReply)
    (dur : ℕ → ℕ) (rid : String) (i elapsed : ℕ) (h : elapsed < maxWait) :
    researchPollLoop maxWait reply dur rid i elapsed =
      match reply i with
      | .httpErr st stext btext => (.apiErr st (pickMsg btext stext), i + 1)
      | .okJson d =>
        match pollStep d with
        | .exitCompleted =>
          (.completedR d (elapsed + RESEARCH_POLL_INTERVAL + dur i), i + 1)
        | .exitFailed => (.failedR d, i + 1)
        | .cont => researchPollLoop maxWait reply dur rid (i + 1)
            (elapsed + RESEARCH_POLL_INTERVAL + dur i) := by
  rw [researchPollLoop.eq_def]
  rw [dif_pos h]

/-- One exit of the poll loop when the budget is exhausted. -/
theorem researchPollLoop_exhaust (maxWait : ℕ) (reply : ℕ → PollReply)
    (dur : ℕ → ℕ) (rid : String) (i elapsed : ℕ) (h : ¬ elapsed < maxWait) :
    researchPollLoop maxWait reply dur rid i elapsed =
      (.timeoutR rid elapsed, i) := by
  rw [researchPollLoop.eq_def]
  rw [dif_neg h]

/-- The spec's poller scenario: two pending polls, then a completed
one with output `"report text"`. -/
def scenarioReply : ℕ → PollReply := fun i =>
  if i < 2 then .okJson ⟨some "pending", none⟩
  else .okJson ⟨some "completed", some "report text"⟩

/-- **C5.**  In the scenario where job creation returns pending with
`request_id = "abc"`, two polls return pending and the third returns
completed with output `"report text"` (default wait budget, 30 s
configured timeout), the workflow exits on the third poll with exactly
three poll requests issued and the poll body (including the output) as
the final result.  In general a loop iteration exits with the poll
body exactly when the body has a completed status or a truthy output
field; a body with a failed/error status (and no completed condition)
exits with the `tavily_research_failed` error carrying the raw
payload. -/
theorem c5_poll_loop_exits :
    tavilyResearchExec (researchMaxWait 30)
        (.okJson ⟨some "pending", some "abc"⟩) 0 scenarioReply
        (fun _ => 0) =
      (.completedR ⟨some "completed", some "report text"⟩ 6000, 3) ∧
    (∀ d : PollData, pollStep d = .exitCompleted ↔
      (d.status = some "completed" ∨ truthyStr d.output = true)) ∧
    (∀ d : PollData,
      (d.status = some "failed" ∨ d.status = some "error") →
      ¬ (d.status = some "completed" ∨ truthyStr d.output = true) →
      pollStep d = .exitFailed) ∧
    (∀ (maxWait : ℕ) (reply : ℕ → PollReply) (dur : ℕ → ℕ)
        (rid : String) (i elapsed : ℕ) (d : PollData),
      elapsed < maxWait → reply i = .okJson d →
      (pollStep d = .exitCompleted →
        researchPollLoop maxWait reply dur rid i elapsed =
          (.completedR d (elapsed + RESEARCH_POLL_INTERVAL + dur i),
            i + 1)) ∧
      (pollStep d = .exitFailed →
        researchPollLoop maxWait reply dur rid i elapsed =
          (.failedR d, i + 1))) ∧
    (∀ d : PollData,
      researchErrorCode (.failedR d) = some "tavily_research_failed") := by
  refine ⟨?_, ?_, ?_, ?_, fun d => rfl⟩
  · have hc : tavilyResearchExec (researchMaxWait 30)
        (.okJson ⟨some "pending", some "abc"⟩) 0 scenarioReply (fun _ => 0) =
        researchPollLoop (researchMaxWait 30) scenarioReply (fun _ => 0)
          "abc" 0 0 := by
      simp [tavilyResearchExec, truthyStr]
    rw [hc]
    rw [researchPollLoop_unfold _ _ _ _ _ _ (by norm_num [researchMaxWait])]
    norm_num [scenarioReply, pollStep, truthyStr, RESEARCH_POLL_INTERVAL]
    rw [researchPollLoop_unfold _ _ _ _ _ _ (by norm_num [researchMaxWait])]
    norm_num [scenarioReply, pollStep, truthyStr, RESEARCH_POLL_INTERVAL]
    rw [researchPollLoop_unfold _ _ _ _ _ _ (by norm_num [researchMaxWait])]
    norm_num [scenarioReply, pollStep, truthyStr, RESEARCH_POLL_INTERVAL]
    decide
  · intro d
    unfold pollStep
    constructor
    · intro h
      by_contra hn
      rw [if_neg ?_] at h
      · split at h <;> cases h
      · intro hcond
        exact hn (by simpa using hcond)
    · intro h
      rw [if_pos (by simpa using h)]
  · intro d hfe hnc
    unfold pollStep
    rw [if_neg (by simpa using hnc), if_pos hfe]
  · intro maxWait reply dur rid i elapsed d hlt hr
    constructor
    · intro hstep
      rw [researchPollLoop_unfold _ _ _ _ _ _ hlt, hr]
      simp only [hstep]
    · intro hstep
      rw [researchPollLoop_unfold _ _ _ _ _ _ hlt, hr]
      simp only [hstep]

/-- **C5 witness.**  Concrete instances of the universally quantified
parts of `c5_poll_loop_exits`. -/
theorem c5_poll_loop_exits_witness :
    (pollStep ⟨some "completed", some "report text"⟩ = .exitCompleted ↔
      ((some "completed" : Option String) = some "completed" ∨
        truthyStr (some "report text") = true)) ∧
    pollStep ⟨some "failed", none⟩ = .exitFailed ∧
    researchPollLoop 150000 scenarioReply (fun _ => 0) "abc" 2 4000 =
      (.completedR ⟨some "completed", some "report text"⟩ 6000, 3) := by
  refine ⟨c5_poll_loop_exits.2.1 _, ?_, ?_⟩
  · exact c5_poll_loop_exits.2.2.1 ⟨some "failed", none⟩ (Or.inl rfl)
      (by simp [truthyStr])
  · exact (c5_poll_loop_exits.2.2.2.1 150000 scenarioReply (fun _ => 0)
      "abc" 2 4000 ⟨some "completed", some "report text"⟩ (by norm_num)
      rfl).1 rfl

-- ---------------------------------------------------------------------------
-- Claim C2
-- ---------------------------------------------------------------------------

/-- A poll outcome that keeps the loop in its pending state. -/
def isPendingReply (r : PollReply) : Bool :=
  match r with
  | .okJson d => pollStep d == .cont
  | .httpErr _ _ _ => false

theorem researchPollLoop_all_pending (maxWait : ℕ)
    (reply : ℕ → PollReply) (dur : ℕ → ℕ) (rid : String)
    (hp : ∀ i, isPendingReply (reply i) = true) :
    ∀ (fuel i elapsed : ℕ), maxWait - elapsed ≤ fuel →
      ∃ tk n, researchPollLoop maxWait reply dur rid i elapsed =
          (.timeoutR rid tk, n) ∧ maxWait ≤ tk ∧ i ≤ n ∧
        RESEARCH_POLL_INTERVAL * (n - i) <
          (maxWait - elapsed) + RESEARCH_POLL_INTERVAL := by
  intro fuel
  induction fuel with
  | zero =>
    intro i elapsed hfuel
    have hge : ¬ elapsed < maxWait := by omega
    refine ⟨elapsed, i, researchPollLoop_exhaust _ _ _ _ _ _ hge, by omega,
      le_refl i, by simp only [RESEARCH_POLL_INTERVAL]; omega⟩
  | succ fuel ih =>
    intro i elapsed hfuel
    by_cases hlt : elapsed < maxWait
    · have hpi := hp i
      cases hr : reply i with
      | httpErr st stext btext => rw [hr] at hpi; cases hpi
      | okJson d =>
        rw [hr] at hpi
        have hstep : pollStep d = .cont := by
          simpa [isPendingReply] using hpi
        rw [researchPollLoop_unfold _ _ _ _ _ _ hlt, hr]
        simp only [hstep]
        have hfuel2 : maxWait - (elapsed + RESEARCH_POLL_INTERVAL + dur i) ≤
            fuel := by
          simp only [RESEARCH_POLL_INTERVAL] at hfuel ⊢
          omega
        rcases ih (i + 1) (elapsed + RESEARCH_POLL_INTERVAL + dur i) hfuel2
          with ⟨tk, n, heq, htk, hin, hbound⟩
        refine ⟨tk, n, heq, htk, by omega, ?_⟩
        simp only [RESEARCH_POLL_INTERVAL] at hbound hfuel2 ⊢
        omega
    · refine ⟨elapsed, i, researchPollLoop_exhaust _ _ _ _ _ _ hlt, by omega,
        le_refl i, by simp only [RESEARCH_POLL_INTERVAL]; omega⟩

/-- **C2.**  If the create step returns a pending job with identifier
`rid` and every status poll reports a pending state, the workflow
terminates: it returns the `tavily_research_timeout` error carrying
the original job identifier, its recorded elapsed time is at least the
wait budget (the loop stops polling as soon as the budget is
exceeded), and the number of poll requests ever issued is bounded by
the budget divided by the poll interval (total wait strictly bounded
for every execution). -/
theorem c2_research_bounded_timeout (maxWait createDur : ℕ)
    (reply : ℕ → PollReply) (dur : ℕ → ℕ) (rid : String)
    (hrid : rid ≠ "") (hp : ∀ i, isPendingReply (reply i) = true) :
    ∃ tk n, tavilyResearchExec maxWait (.okJson ⟨some "pending", some rid⟩)
        createDur reply dur = (.timeoutR rid tk, n) ∧
      maxWait ≤ tk ∧
      researchErrorCode (.timeoutR rid tk) =
        some "tavily_research_timeout" ∧
      RESEARCH_POLL_INTERVAL * n ≤ maxWait + RESEARCH_POLL_INTERVAL := by
  have hc : tavilyResearchExec maxWait
      (.okJson ⟨some "pending", some rid⟩) createDur reply dur =
      researchPollLoop maxWait reply dur rid 0 createDur := by
    simp [tavilyResearchExec, truthyStr, hrid]
  rcases researchPollLoop_all_pending maxWait reply dur rid hp
    maxWait 0 createDur (by omega) with ⟨tk, n, heq, htk, _, hbound⟩
  refine ⟨tk, n, hc.trans heq, htk, rfl, ?_⟩
  simp only [RESEARCH_POLL_INTERVAL] at hbound ⊢
  omega

/-- The always-pending poll stream used by the timeout witness. -/
def pendingReplyW : ℕ → PollReply := fun _ => .okJson ⟨some "pending", none⟩

/-- **C2 witness.**  Concrete instance with a 3000 ms budget. -/
theorem c2_research_bounded_timeout_witness :
    ("abc" ≠ "") ∧ (∀ i, isPendingReply (pendingReplyW i) = true) ∧
    ∃ tk n, tavilyResearchExec 3000 (.okJson ⟨some "pending", some "abc"⟩)
        0 pendingReplyW (fun _ => 0) = (.timeoutR "abc" tk, n) ∧
      3000 ≤ tk ∧
      researchErrorCode (.timeoutR "abc" tk) =
        some "tavily_research_timeout" ∧
      RESEARCH_POLL_INTERVAL * n ≤ 3000 + RESEARCH_POLL_INTERVAL := by
  refine ⟨by decide, fun i => rfl, ?_⟩
  exact c2_research_bounded_timeout 3000 0 pendingReplyW (fun _ => 0) "abc"
    (by decide) (fun i => rfl)

-- ---------------------------------------------------------------------------
-- Claim C1
-- ---------------------------------------------------------------------------

/-- **C1, counterexample.**  The claim covers *every* outbound call,
including the research create request and every research status poll;
but those two `fetch` call sites pass no abort signal and schedule no
timer, so they are not bounded by the configured timeout. -/
theorem c1_research_calls_unbounded_counterexample :
    researchCreateCall.hasTimeoutAbort = false ∧
    researchPollCall.hasTimeoutAbort = false :=
  ⟨rfl, rfl⟩

/-- **C1 (amended).**  The outbound calls of the search, extract,
crawl and map tools each attach an abort controller fired after the
configured timeout, and an aborted (thrown) fetch surfaces as the
`tavily_fetch_error` transport-error result (shown for the embedded
search tool); the research create request and the research status
polls, however, are issued without any per-request timeout, so only
the poll loop's overall wait budget bounds the research workflow. -/
theorem c1_timeout_wiring (V : Type) (cfg : SearchConfig) (p : RawParams)
    (hostOf : Option String → Option String) (c : Cache (Payload V))
    (m : String) (tRead tWrite tookMs : ℤ) (spec : SearchSpec)
    (hspec : resolveSearchSpec cfg p = some spec)
    (hmiss : (readCache c tRead (searchCacheKey spec)).1 = none) :
    searchCall.hasTimeoutAbort = true ∧
    extractCall.hasTimeoutAbort = true ∧
    crawlCall.hasTimeoutAbort = true ∧
    mapCall.hasTimeoutAbort = true ∧
    researchCreateCall.hasTimeoutAbort = false ∧
    researchPollCall.hasTimeoutAbort = false ∧
    (tavilySearchExec cfg p hostOf c (.netError m)
        tRead tWrite tookMs).out = .fetchErr m ∧
    searchErrorCode (SearchOut.fetchErr (V := V) m) =
      some "tavily_fetch_error" := by
  refine ⟨rfl, rfl, rfl, rfl, rfl, rfl, ?_, rfl⟩
  rcases hR : readCache c tRead (searchCacheKey spec) with ⟨o, c1⟩
  rw [hR] at hmiss
  simp at hmiss
  subst hmiss
  simp only [tavilySearchExec, hspec, hR]

/-- **C1 witness.**  Concrete instance: an aborted search fetch is
reported as `tavily_fetch_error`. -/
theorem c1_timeout_wiring_witness :
    resolveSearchSpec cfg0 p0 = some spec0 ∧
    (tavilySearchExec (V := Unit) cfg0 p0 (fun _ => none) []
        (.netError "The operation was aborted") 0 0 0).out =
      .fetchErr "The operation was aborted" := by
  refine ⟨by decide, ?_⟩
  exact (c1_timeout_wiring Unit cfg0 p0 (fun _ => none) []
    "The operation was aborted" 0 0 0 spec0 (by decide)
    (by decide)).2.2.2.2.2.2.1

end Tavily
